import Mathlib

/-!
Shallow embedding of the async-memcached client core (`src/lib.rs`).

The client's response-driving engine and command layer are embedded as pure
Lean functions.  I/O is made explicit:

* the transport's successive reads are a script `chunks : List (List Nat)`
  of byte chunks (an empty chunk models `read_buf` returning `0`, i.e. the
  peer closed the stream);
* the per-key response stream consumed by multi-key stores is a function
  `resps : Nat → Except Error Response`, the outcome of the i-th
  `drive_receive` call;
* bytes are modelled as `Nat` (the source works on `&[u8]`/`BytesMut`);
  `BytesMut::split_to(n)` is modelled by `List.drop n` (front consumption).

Types re-exported from the `parser` and `error` modules (`Status`,
`ErrorKind`, `Value`, `Response`, `MetadumpResponse`, `KeyMetadata`,
`Error`) are reconstructed here; their shapes are pinned by how `lib.rs`
constructs and matches them (e.g. `Error::Protocol(Status::Error(..))` at
`Client::get`) and by §3 of the specification where the defining module is
not part of the sources.
-/

namespace AsyncMemcached

/-- `ErrorKind` from the parser module: kinds of client-observable protocol
errors (spec §3; constructed in `lib.rs` as `ErrorKind::Protocol(None)`). -/
inductive ErrorKind where
  | Generic : ErrorKind
  | Client : String → ErrorKind
  | Server : String → ErrorKind
  | Protocol : Option String → ErrorKind
deriving DecidableEq, Repr

/-- `Status`: the closed set of protocol outcome codes (spec §3). -/
inductive Status where
  | Stored : Status
  | NotStored : Status
  | Exists : Status
  | Deleted : Status
  | NotFound : Status
  | Touched : Status
  | Error : ErrorKind → Status
deriving DecidableEq, Repr

/-- `Value`: one retrieved item — key bytes, flags, payload bytes, optional
CAS token (spec §3). -/
structure Value where
  key : List Nat
  cas : Option Nat
  flags : Nat
  data : List Nat
deriving DecidableEq, Repr

/-- `Response`: the typed result of one completed parse cycle of the primary
grammar (spec §3). `Data none` is the absent variant (bare `END` with no
`VALUE` blocks); `Data (some items)` carries the parsed items. -/
inductive Response where
  | Status : Status → Response
  | Data : Option (List Value) → Response
  | IncrDecr : Nat → Response
deriving DecidableEq, Repr

/-- The I/O error kind `lib.rs` constructs on a zero-byte read
(`std::io::ErrorKind::UnexpectedEof`). -/
inductive IoErrorKind where
  | UnexpectedEof : IoErrorKind
deriving DecidableEq, Repr

/-- `Error` from the error module, restricted to the variants `lib.rs`
constructs: `Error::Io(..)` on transport failure and
`Error::Protocol(status)` (the target of `Status::into()`, visible
explicitly at `Client::get`'s fall-through arm). -/
inductive Error where
  | Io : IoErrorKind → Error
  | Protocol : Status → Error
deriving DecidableEq, Repr

/-- `KeyMetadata`: one crawled item of the metadump stream (spec §3). -/
structure KeyMetadata where
  key : List Nat
  exp : Int
  la : Nat
  cas : Nat
  fetch : Bool
  cls : Nat
  size : Nat
deriving DecidableEq, Repr

/-- `MetadumpResponse` (spec §3). -/
inductive MetadumpResponse where
  | Entry : KeyMetadata → MetadumpResponse
  | BadClass : String → MetadumpResponse
  | Busy : String → MetadumpResponse
  | End : MetadumpResponse
deriving DecidableEq, Repr

/-- The mutable client state owned by `Client`: the accumulation buffer
`buf` and the consumed-count marker `last_read_n`. -/
structure ClientState where
  buf : List Nat
  last_read_n : Option Nat
deriving DecidableEq, Repr

/-- Outcome of one `drive_receive` call. `starved` marks the point where the
scripted transport has no further chunk to offer — in the real client the
pending `read_buf` would simply keep waiting, so no result is produced. -/
inductive DriveOutcome (R : Type) where
  | ok : R → DriveOutcome R
  | err : Error → DriveOutcome R
  | starved : DriveOutcome R
deriving DecidableEq, Repr

/-- ASCII bytes of a string literal (the source writes request text with
`write_all(b"...")`; all frame text is ASCII, so one `Char` is one byte). -/
def asciiBytes (s : String) : List Nat := s.data.map Char.toNat

namespace Client

/-- The read-then-parse iterations of `drive_receive`'s `loop` (entered
whenever the buffer is empty or the previous attempt signalled
incomplete).  Each iteration pulls the next scripted chunk: an empty chunk
is `read_buf` returning `0` and yields the fatal `UnexpectedEof` I/O error;
otherwise the chunk is appended to the buffer and the parser `op` is
offered the grown buffer.  `old` is the value `self.last_read_n` held on
entry — the source only ever assigns that field on the `Parsed` arm, so
every other exit leaves it at `old`. -/
def driveRead {R : Type} (op : List Nat → Except ErrorKind (Option (Nat × R)))
    (old : Option Nat) :
    List (List Nat) → List Nat → DriveOutcome R × ClientState × List (List Nat)
  | [], buf => (.starved, ⟨buf, old⟩, [])
  | c :: rest, buf =>
    if c.isEmpty then
      (.err (.Io .UnexpectedEof), ⟨buf, old⟩, rest)
    else
      match op (buf ++ c) with
      | .ok (some (n, r)) => (.ok r, ⟨buf ++ c, some n⟩, rest)
      | .ok none => driveRead op old rest (buf ++ c)
      | .error k => (.err (.Protocol (.Error k)), ⟨buf ++ c, old⟩, rest)

/-- `drive_receive`'s body after the front of the buffer has been advanced:
the first loop iteration skips the read when the buffer is non-empty, and
every later iteration goes through `driveRead`. -/
def driveFresh {R : Type} (op : List Nat → Except ErrorKind (Option (Nat × R)))
    (old : Option Nat) (buf : List Nat) (chunks : List (List Nat)) :
    DriveOutcome R × ClientState × List (List Nat) :=
  if buf.isEmpty then driveRead op old chunks buf
  else
    match op buf with
    | .ok (some (n, r)) => (.ok r, ⟨buf, some n⟩, chunks)
    | .ok none => driveRead op old chunks buf
    | .error k => (.err (.Protocol (.Error k)), ⟨buf, old⟩, chunks)

/-- The marker application at the top of `drive_receive`:
`if let Some(n) = self.last_read_n { self.buf.split_to(n); }`. -/
def applyMarker (st : ClientState) : List Nat :=
  match st.last_read_n with
  | some n => st.buf.drop n
  | none => st.buf

/-- `Client::drive_receive`: advance the buffer past the bytes consumed by
the previous successful parse, then read/parse until the offered parser
`op` produces a response (`Ok(Some((n, r)))`), needs more data
(`Ok(None)`), or reports malformed input (`Err(kind)`).  Returns the
outcome together with the resulting client state and the unconsumed tail
of the transport script. -/
def drive_receive {R : Type} (op : List Nat → Except ErrorKind (Option (Nat × R)))
    (st : ClientState) (chunks : List (List Nat)) :
    DriveOutcome R × ClientState × List (List Nat) :=
  driveFresh op st.last_read_n (applyMarker st) chunks

/-- The response handling of `Client::get` (the match on
`get_read_write_response()`): `NotFound` maps to an absent result, any
other status to its error, an absent `Data` to an absent result, a present
`Data` must hold exactly one item (`items.remove(0)`), and any other
response shape is a protocol error. -/
def get (r : Response) : Except Error (Option Value) :=
  match r with
  | .Status .NotFound => .ok none
  | .Status s => .error (.Protocol s)
  | .Data none => .ok none
  | .Data (some items) =>
    if items.length ≠ 1 then .error (.Protocol (.Error (.Protocol none)))
    else .ok items.head?
  | _ => .error (.Protocol (.Error (.Protocol none)))

/-- The response handling of `Client::get_many`: any status is an error, a
present `Data` sequence is the result set, an absent `Data` is
`d.ok_or(Status::NotFound.into())`, i.e. a `NotFound` protocol error, and
any other response shape is a protocol error. -/
def get_many (r : Response) : Except Error (List Value) :=
  match r with
  | .Status s => .error (.Protocol s)
  | .Data (some items) => .ok items
  | .Data none => .error (.Protocol .NotFound)
  | _ => .error (.Protocol (.Error (.Protocol none)))

/-- The bytes `Client::set_multi` writes for one key-value pair:
`set <key> <flags> <ttl> <len>\r\n<payload>\r\n`, flags/ttl defaulting to 0
(`unwrap_or(0).to_string()`). -/
def setFrame (key value : List Nat) (ttl : Option Int) (flags : Option Nat) :
    List Nat :=
  asciiBytes "set " ++ key ++
  asciiBytes " " ++ asciiBytes (toString (flags.getD 0)) ++
  asciiBytes " " ++ asciiBytes (toString (ttl.getD 0)) ++
  asciiBytes " " ++ asciiBytes (toString value.length) ++
  asciiBytes "\r\n" ++ value ++ asciiBytes "\r\n"

/-- The per-key classification inside `Client::filter_set_multi_responses`:
`Stored` stays a success, any other status becomes its error, any
non-status response becomes a `Protocol(None)` error. -/
def setStoreResult (resp : Response) : Except Error Response :=
  match resp with
  | .Status .Stored => .ok (.Status .Stored)
  | .Status s => .error (.Protocol s)
  | _ => .error (.Protocol (.Error (.Protocol none)))

/-- `Client::filter_set_multi_responses`: one response is driven per key, in
request order (`resps i` is the outcome of the i-th `drive_receive`).  A
drive error aborts the whole call; a `Stored` response skips the insert;
anything else inserts the classified error keyed by the original key.  The
`HashMap` accumulator is modelled as the association list of inserted
pairs. -/
def filter_set_multi_responses {K : Type} (kvp : List K)
    (resps : Nat → Except Error Response) (i : Nat) :
    Except Error (List (K × Except Error Response)) :=
  match kvp with
  | [] => .ok []
  | key :: rest =>
    match resps i with
    | .error e => .error e
    | .ok resp =>
      match setStoreResult resp with
      | .ok (.Status .Stored) => filter_set_multi_responses rest resps (i + 1)
      | result =>
        (filter_set_multi_responses rest resps (i + 1)).map
          (fun m => (key, result) :: m)

/-- `Client::set_multi`: an empty input collection short-circuits
(`kv_iter.peek().is_none()`) with no frames written and an empty result
map; otherwise one frame per pair is written in order, flushed once, and
the responses are correlated by `filter_set_multi_responses` over the
cloned key iterator.  `kr` models `K: AsRef<[u8]>`; values are already
byte sequences (`AsMemcachedValue::as_bytes`).  Transport writes are
modelled as infallible; the first component is the list of written
frames. -/
def set_multi {K : Type} (kr : K → List Nat) (kv : List (K × List Nat))
    (ttl : Option Int) (flags : Option Nat)
    (resps : Nat → Except Error Response) :
    List (List Nat) × Except Error (List (K × Except Error Response)) :=
  if kv.isEmpty then ([], .ok [])
  else
    (kv.map (fun p => setFrame (kr p.1) p.2 ttl flags),
     filter_set_multi_responses (kv.map Prod.fst) resps 0)

/-- The write loop of `Client::set_multi_test_two`: writes the same
`set <key> <flags> <ttl> <len>\r\n<payload>\r\n` text per pair while
pushing each key onto a vector, in processing order. -/
def writeKeysLoop {K : Type} (kr : K → List Nat) (ttl : Option Int)
    (flags : Option Nat) :
    List (K × List Nat) → List (List Nat) × List K
  | [] => ([], [])
  | (key, value) :: rest =>
    let r := writeKeysLoop kr ttl flags rest
    ((asciiBytes "set " ++ kr key ++
       asciiBytes " " ++ asciiBytes (toString (flags.getD 0)) ++
       asciiBytes " " ++ asciiBytes (toString (ttl.getD 0)) ++
       asciiBytes " " ++ asciiBytes (toString value.length) ++
       asciiBytes "\r\n" ++ value ++ asciiBytes "\r\n") :: r.1,
     key :: r.2)

/-- The response loop of `Client::set_multi_test_two`, which inlines the
`filter_set_multi_responses` behaviour over the collected key vector. -/
def collectResponses {K : Type} :
    List K → (Nat → Except Error Response) → Nat →
    Except Error (List (K × Except Error Response))
  | [], _, _ => .ok []
  | key :: rest, resps, i =>
    match resps i with
    | .error e => .error e
    | .ok resp =>
      match ((match resp with
              | .Status .Stored => Except.ok (Response.Status .Stored)
              | .Status s => .error (.Protocol s)
              | _ => .error (.Protocol (.Error (.Protocol none)))) :
             Except Error Response) with
      | .ok (.Status .Stored) => collectResponses rest resps (i + 1)
      | result =>
        (collectResponses rest resps (i + 1)).map (fun m => (key, result) :: m)

/-- `Client::set_multi_test_two`: writes every frame while collecting the
keys into a vector, flushes, then drives one response per collected key
with the inlined filtering loop. -/
def set_multi_test_two {K : Type} (kr : K → List Nat) (kv : List (K × List Nat))
    (ttl : Option Int) (flags : Option Nat)
    (resps : Nat → Except Error Response) :
    List (List Nat) × Except Error (List (K × Except Error Response)) :=
  let w := writeKeysLoop kr ttl flags kv
  (w.1, collectResponses w.2 resps 0)

/-- `Client::version`, given the raw line delivered by
`Connection::read_line`.  Modelled from the spec: the connection module is
not part of the sources; spec §6 describes its read operation as reading
"a single line-terminated string", and the source counts its returned
`bytes` against the 8-byte `VERSION ` header, so the line is modelled as
arriving with its `\r\n` terminator.  The line is ASCII, so the byte count
and `is_char_boundary(8)` check collapse to a character count and
`split_off(8)` is a drop of 8 characters. -/
def version (line : String) : Except Error String :=
  if 8 ≤ line.length then .ok (String.mk (line.data.drop 8))
  else
    .error (.Protocol (.Error (.Protocol (some
      ("Invalid response for `version` command: `" ++ line ++ "`")))))

/-- `Client::set_no_reply`: the written frame (with the ` noreply` token
between the length field and the payload), the untouched client state, and
the unconditional local success. -/
def set_no_reply (key value : List Nat) (ttl : Option Int) (flags : Option Nat)
    (st : ClientState) : List Nat × ClientState × Except Error Unit :=
  (asciiBytes "set " ++ key ++
     asciiBytes " " ++ asciiBytes (toString (flags.getD 0)) ++
     asciiBytes " " ++ asciiBytes (toString (ttl.getD 0)) ++
     asciiBytes " " ++ asciiBytes (toString value.length) ++
     asciiBytes " noreply\r\n" ++ value ++ asciiBytes "\r\n",
   st, .ok ())

/-- `Client::delete_no_reply`: writes `delete <key> noreply\r\n`, drives no
response, succeeds locally. -/
def delete_no_reply (key : List Nat) (st : ClientState) :
    List Nat × ClientState × Except Error Unit :=
  (asciiBytes "delete " ++ key ++ asciiBytes " noreply\r\n", st, .ok ())

/-- `Client::increment_no_reply`: writes `incr <key> <amount> noreply\r\n`,
drives no response, succeeds locally. -/
def increment_no_reply (key : List Nat) (amount : Nat) (st : ClientState) :
    List Nat × ClientState × Except Error Unit :=
  (asciiBytes "incr " ++ key ++ asciiBytes " " ++
     asciiBytes (toString amount) ++ asciiBytes " noreply\r\n",
   st, .ok ())

/-- `Client::decrement_no_reply`: writes `decr <key> <amount> noreply\r\n`,
drives no response, succeeds locally. -/
def decrement_no_reply (key : List Nat) (amount : Nat) (st : ClientState) :
    List Nat × ClientState × Except Error Unit :=
  (asciiBytes "decr " ++ key ++ asciiBytes " " ++
     asciiBytes (toString amount) ++ asciiBytes " noreply\r\n",
   st, .ok ())

end Client

/-- Modelled from the spec: the `From<MetadumpResponse> for Status`
conversion used by `MetadumpIter::next` lives in the parser module, which
is not part of the sources.  Spec §4.4 says `BadClass`/`Busy` "surface an
error", so both map to a protocol error status carrying the server's
message. -/
def MetadumpResponse.toStatus : MetadumpResponse → Status
  | .BadClass s => .Error (.Protocol (some s))
  | .Busy s => .Error (.Protocol (some s))
  | .Entry _ => .Error (.Protocol none)
  | .End => .Error (.Protocol none)

namespace MetadumpIter

/-- `MetadumpIter::next` as a step function of the `done` flag.  `resp` is
the outcome `get_metadump_response()` would produce; when `done` is
already set it is never pulled and the call is a no-op.  Returns the
yielded item (if any) and the new `done` flag. -/
def next (resp : Except Error MetadumpResponse) (done : Bool) :
    Option (Except Error KeyMetadata) × Bool :=
  if done then (none, done)
  else
    match resp with
    | .ok .End => (none, true)
    | .ok (.BadClass s) =>
      (some (.error (.Protocol (MetadumpResponse.toStatus (.BadClass s)))), true)
    | .ok (.Busy s) =>
      (some (.error (.Protocol (MetadumpResponse.toStatus (.Busy s)))), false)
    | .ok (.Entry km) => (some (.ok km), false)
    | .error e => (some (.error e), done)

end MetadumpIter

/-- A toy parser used to exercise the driving loop on concrete inputs: a
buffer of at least two bytes parses as its first two bytes with consumed
count 2, anything shorter is incomplete. -/
def opTake2 : List Nat → Except ErrorKind (Option (Nat × List Nat)) :=
  fun bs => if 2 ≤ bs.length then .ok (some (2, bs.take 2)) else .ok none

/-- A parser that rejects every buffer as malformed with the bare `ERROR`
kind. -/
def opMalformed : List Nat → Except ErrorKind (Option (Nat × Response)) :=
  fun _ => .error .Generic

/-- A parser that consumes and returns the whole buffer it is offered,
recording exactly what the driving loop presented to it. -/
def opEcho : List Nat → Except ErrorKind (Option (Nat × List Nat)) :=
  fun bs => .ok (some (bs.length, bs))

/-! ## Helper lemmas about the driving loop -/

/-- If the read-parse loop returns a response, the final buffer parses to
exactly that response with some consumed count `n`, and `n` is what got
recorded in `last_read_n`. -/
theorem driveRead_ok {R : Type} (op : List Nat → Except ErrorKind (Option (Nat × R)))
    (old : Option Nat) :
    ∀ (chunks : List (List Nat)) (buf : List Nat) (r : R) (st' : ClientState)
      (rest : List (List Nat)),
      Client.driveRead op old chunks buf = (.ok r, st', rest) →
      ∃ n, op st'.buf = .ok (some (n, r)) ∧ st'.last_read_n = some n := by
  intro chunks
  induction chunks with
  | nil =>
    intro buf r st' rest h
    simp [Client.driveRead] at h
  | cons c cs ih =>
    intro buf r st' rest h
    simp only [Client.driveRead] at h
    by_cases hc : c.isEmpty
    · rw [if_pos hc] at h
      simp [Prod.mk.injEq] at h
    · rw [if_neg hc] at h
      cases hop : op (buf ++ c) with
      | ok o =>
        cases o with
        | none =>
          rw [hop] at h
          exact ih _ _ _ _ h
        | some p =>
          obtain ⟨n, r0⟩ := p
          rw [hop] at h
          simp only [Prod.mk.injEq, DriveOutcome.ok.injEq] at h
          obtain ⟨hr, hst, hrest⟩ := h
          subst hr
          subst hst
          exact ⟨n, by simpa using hop, rfl⟩
      | error k =>
        rw [hop] at h
        simp [Prod.mk.injEq] at h

/-- If the read-parse loop returns a malformed-protocol error, the final
buffer is indeed rejected by the parser and `last_read_n` still holds the
value it had on entry to `drive_receive`. -/
theorem driveRead_malformed {R : Type}
    (op : List Nat → Except ErrorKind (Option (Nat × R))) (old : Option Nat) :
    ∀ (chunks : List (List Nat)) (buf : List Nat) (k : ErrorKind)
      (st' : ClientState) (rest : List (List Nat)),
      Client.driveRead op old chunks buf = (.err (.Protocol (.Error k)), st', rest) →
      op st'.buf = .error k ∧ st'.last_read_n = old := by
  intro chunks
  induction chunks with
  | nil =>
    intro buf k st' rest h
    simp [Client.driveRead] at h
  | cons c cs ih =>
    intro buf k st' rest h
    simp only [Client.driveRead] at h
    by_cases hc : c.isEmpty
    · rw [if_pos hc] at h
      simp [Prod.mk.injEq] at h
    · rw [if_neg hc] at h
      cases hop : op (buf ++ c) with
      | ok o =>
        cases o with
        | none =>
          rw [hop] at h
          exact ih _ _ _ _ h
        | some p =>
          obtain ⟨n, r0⟩ := p
          rw [hop] at h
          simp [Prod.mk.injEq] at h
      | error k0 =>
        rw [hop] at h
        simp only [Prod.mk.injEq, DriveOutcome.err.injEq, Error.Protocol.injEq,
          Status.Error.injEq] at h
        obtain ⟨hk, hst, hrest⟩ := h
        subst hk
        subst hst
        exact ⟨by simpa using hop, rfl⟩

/-- Against a parser that keeps signalling *Incomplete*, the read-parse
loop reaches the first zero-byte read in its script and fails with
`UnexpectedEof` instead of retrying forever. -/
theorem driveRead_incomplete_hits_eof {R : Type}
    (op : List Nat → Except ErrorKind (Option (Nat × R))) (old : Option Nat)
    (hop : ∀ b, op b = .ok none) :
    ∀ (chunks : List (List Nat)) (buf : List Nat), [] ∈ chunks →
      (Client.driveRead op old chunks buf).1 = .err (.Io .UnexpectedEof) := by
  intro chunks
  induction chunks with
  | nil =>
    intro buf hmem
    simp at hmem
  | cons c cs ih =>
    intro buf hmem
    simp only [Client.driveRead]
    by_cases hc : c.isEmpty
    · rw [if_pos hc]
    · rw [if_neg hc, hop (buf ++ c)]
      refine ih _ ?_
      rcases List.mem_cons.mp hmem with hceq | hcs
      · exact absurd (by rw [← hceq]; rfl) hc
      · exact hcs

/-! ## Claim theorems -/

/-- C1: when the offered parser returns *Parsed* with consumed count `n`,
`drive_receive` records `n` in `last_read_n` and returns the typed
response produced by parsing the final buffer; and the very next call
first drops exactly `n` bytes from the front of the accumulation buffer
and only then runs its read/parse cycle, so the parser is offered a buffer
starting at a response boundary. -/
theorem drive_receive_parsed_records_and_advances {R : Type}
    (op : List Nat → Except ErrorKind (Option (Nat × R)))
    (st : ClientState) (chunks : List (List Nat)) (r : R)
    (st' : ClientState) (rest : List (List Nat))
    (h : Client.drive_receive op st chunks = (.ok r, st', rest)) :
    ∃ n, op st'.buf = .ok (some (n, r)) ∧ st'.last_read_n = some n ∧
      ∀ chunks2, Client.drive_receive op st' chunks2 =
        Client.driveFresh op (some n) (List.drop n st'.buf) chunks2 := by
  unfold Client.drive_receive Client.driveFresh at h
  by_cases hb : (Client.applyMarker st).isEmpty
  · rw [if_pos hb] at h
    obtain ⟨n, h1, h2⟩ := driveRead_ok op st.last_read_n _ _ _ _ _ h
    exact ⟨n, h1, h2, fun chunks2 => by
      simp [Client.drive_receive, Client.applyMarker, h2]⟩
  · rw [if_neg hb] at h
    cases hop : op (Client.applyMarker st) with
    | ok o =>
      cases o with
      | none =>
        rw [hop] at h
        obtain ⟨n, h1, h2⟩ := driveRead_ok op st.last_read_n _ _ _ _ _ h
        exact ⟨n, h1, h2, fun chunks2 => by
          simp [Client.drive_receive, Client.applyMarker, h2]⟩
      | some p =>
        obtain ⟨n, r0⟩ := p
        rw [hop] at h
        simp only [Prod.mk.injEq, DriveOutcome.ok.injEq] at h
        obtain ⟨hr, hst, hrest⟩ := h
        subst hr
        subst hst
        exact ⟨n, by simpa using hop, rfl, fun chunks2 => rfl⟩
    | error k =>
      rw [hop] at h
      simp [Prod.mk.injEq] at h

/-- Witness for C1 at a concrete run: a three-byte buffer, a parser that
consumes two bytes, no reads needed. -/
theorem drive_receive_parsed_records_and_advances_witness :
    ∃ n, opTake2 (ClientState.mk [7, 8, 9] (some 2)).buf = .ok (some (n, [7, 8])) ∧
      (ClientState.mk [7, 8, 9] (some 2)).last_read_n = some n ∧
      ∀ chunks2, Client.drive_receive opTake2 ⟨[7, 8, 9], some 2⟩ chunks2 =
        Client.driveFresh opTake2 (some n)
          (List.drop n (ClientState.mk [7, 8, 9] (some 2)).buf) chunks2 :=
  drive_receive_parsed_records_and_advances opTake2 ⟨[7, 8, 9], none⟩ [] [7, 8]
    ⟨[7, 8, 9], some 2⟩ [] rfl

/-- C2: a transport read returning zero bytes makes `drive_receive` fail
immediately with the fatal `UnexpectedEof` I/O error — at the point of the
read itself (first conjunct), and in particular a parser stuck on
*Incomplete* can never loop past a closed stream (second conjunct). -/
theorem drive_receive_zero_byte_read_is_fatal_eof :
    (∀ (R : Type) (op : List Nat → Except ErrorKind (Option (Nat × R)))
       (old : Option Nat) (rest : List (List Nat)) (buf : List Nat),
       Client.driveRead op old ([] :: rest) buf =
         (.err (.Io .UnexpectedEof), ⟨buf, old⟩, rest)) ∧
    (∀ (R : Type) (op : List Nat → Except ErrorKind (Option (Nat × R)))
       (st : ClientState) (chunks : List (List Nat)),
       [] ∈ chunks → (∀ b, op b = .ok none) →
       (Client.drive_receive op st chunks).1 = .err (.Io .UnexpectedEof)) := by
  constructor
  · intro R op old rest buf
    simp [Client.driveRead]
  · intro R op st chunks hmem hop
    unfold Client.drive_receive Client.driveFresh
    by_cases hb : (Client.applyMarker st).isEmpty
    · rw [if_pos hb]
      exact driveRead_incomplete_hits_eof op st.last_read_n hop chunks _ hmem
    · rw [if_neg hb, hop (Client.applyMarker st)]
      exact driveRead_incomplete_hits_eof op st.last_read_n hop chunks _ hmem

/-- Witness for C2: an always-incomplete parser over a script whose second
read is the closed-stream read. -/
theorem drive_receive_zero_byte_read_is_fatal_eof_witness :
    Client.driveRead opTake2 none ([] :: [[3]]) [9] =
      (.err (.Io .UnexpectedEof), ⟨[9], none⟩, [[3]]) ∧
    (Client.drive_receive (fun _ : List Nat => (Except.ok none :
        Except ErrorKind (Option (Nat × Unit)))) ⟨[], none⟩ [[1], []]).1 =
      .err (.Io .UnexpectedEof) :=
  ⟨drive_receive_zero_byte_read_is_fatal_eof.1 (List Nat) opTake2 none [[3]] [9],
   drive_receive_zero_byte_read_is_fatal_eof.2 Unit _ ⟨[], none⟩ [[1], []]
     (by simp) (fun _ => rfl)⟩

/-- C3 counterexample: the claim says a *Malformed* outcome leaves the
consumed-count bookkeeping unset so that the next call drops no bytes.  In
the source `last_read_n` is only ever assigned on the *Parsed* arm, so
after a malformed response it still holds the count recorded by the last
successful parse (here `some 2`, not `none`), and the very next call drops
those 2 bytes again: its parser is offered `[5]`, not `[3, 4, 5]`. -/
theorem drive_receive_malformed_counterexample :
    Client.drive_receive opMalformed ⟨[1, 2, 3, 4, 5], some 2⟩ [] =
      (.err (.Protocol (.Error .Generic)), ⟨[3, 4, 5], some 2⟩, []) ∧
    (ClientState.mk [3, 4, 5] (some 2)).last_read_n ≠ none ∧
    Client.drive_receive opEcho ⟨[3, 4, 5], some 2⟩ [] =
      (.ok [5], ⟨[5], some 1⟩, []) :=
  ⟨rfl, by simp, rfl⟩

/-- C3 (amended): when the parser reports *Malformed*, `drive_receive`
returns the corresponding protocol error and leaves the consumed-count
bookkeeping unchanged rather than unset: it still holds whatever value it
had before the call (`none` only if no parse ever succeeded), so the next
call re-drops that stale count instead of starting from the buffer
front. -/
theorem drive_receive_malformed_keeps_marker {R : Type}
    (op : List Nat → Except ErrorKind (Option (Nat × R)))
    (st : ClientState) (chunks : List (List Nat)) (k : ErrorKind)
    (st' : ClientState) (rest : List (List Nat))
    (h : Client.drive_receive op st chunks =
      (.err (.Protocol (.Error k)), st', rest)) :
    op st'.buf = .error k ∧ st'.last_read_n = st.last_read_n := by
  unfold Client.drive_receive Client.driveFresh at h
  by_cases hb : (Client.applyMarker st).isEmpty
  · rw [if_pos hb] at h
    exact driveRead_malformed op st.last_read_n _ _ _ _ _ h
  · rw [if_neg hb] at h
    cases hop : op (Client.applyMarker st) with
    | ok o =>
      cases o with
      | none =>
        rw [hop] at h
        exact driveRead_malformed op st.last_read_n _ _ _ _ _ h
      | some p =>
        obtain ⟨n, r0⟩ := p
        rw [hop] at h
        simp [Prod.mk.injEq] at h
    | error k0 =>
      rw [hop] at h
      simp only [Prod.mk.injEq, DriveOutcome.err.injEq, Error.Protocol.injEq,
        Status.Error.injEq] at h
      obtain ⟨hk, hst, hrest⟩ := h
      subst hk
      subst hst
      exact ⟨by simpa using hop, rfl⟩

/-- Witness for the amended C3, at the same concrete malformed run as the
counterexample. -/
theorem drive_receive_malformed_keeps_marker_witness :
    opMalformed (ClientState.mk [3, 4, 5] (some 2)).buf = .error .Generic ∧
    (ClientState.mk [3, 4, 5] (some 2)).last_read_n =
      (ClientState.mk [1, 2, 3, 4, 5] (some 2)).last_read_n :=
  drive_receive_malformed_keeps_marker opMalformed ⟨[1, 2, 3, 4, 5], some 2⟩ []
    .Generic ⟨[3, 4, 5], some 2⟩ [] rfl

/-- A concrete retrieved item used by witnesses. -/
def valueA : Value := ⟨[97], none, 0, [120]⟩

/-- A second concrete retrieved item used by witnesses. -/
def valueB : Value := ⟨[98], none, 0, [121]⟩

/-- C4: single-key retrieval maps a `Data` response with zero items (the
absent variant, produced for a bare `END` with no `VALUE` block) to
`Ok(None)`, never an error; exactly one item to that item; and more than
one item to a protocol violation error. -/
theorem get_data_cardinality :
    Client.get (.Data none) = .ok none ∧
    (∀ v : Value, Client.get (.Data (some [v])) = .ok (some v)) ∧
    (∀ items : List Value, 1 < items.length →
      Client.get (.Data (some items)) =
        .error (.Protocol (.Error (.Protocol none)))) := by
  refine ⟨rfl, fun v => rfl, fun items hlen => ?_⟩
  have hne : items.length ≠ 1 := by omega
  simp [Client.get, hne]

/-- Witness for C4 at a two-item `Data` response. -/
theorem get_data_cardinality_witness :
    Client.get (.Data (some [valueA, valueB])) =
      .error (.Protocol (.Error (.Protocol none))) :=
  get_data_cardinality.2.2 [valueA, valueB] (by simp)

/-- C5 counterexample: the claim says an absent `Data` response (bare
terminator with no items) is treated by `get_many` as "no keys found" —
an empty/absent result, not an error.  The source maps it with
`d.ok_or(Status::NotFound.into())`, i.e. to an error. -/
theorem get_many_absent_counterexample :
    Client.get_many (.Data none) = .error (.Protocol .NotFound) := rfl

/-- C5 (amended): a present `Data` item sequence is returned whole as the
result set (a requested key with no matching `VALUE` block is simply
missing from it, not an error), but an absent `Data` response yields a
`NotFound` protocol error — matching the source's own doc comment
("Otherwise, `Error` is returned"), not an empty result. -/
theorem get_many_result_set :
    (∀ items : List Value, Client.get_many (.Data (some items)) = .ok items) ∧
    Client.get_many (.Data none) = .error (.Protocol .NotFound) :=
  ⟨fun _ => rfl, rfl⟩

/-- C7 counterexample: the claim's example says the reply line
`VERSION 1.6.7\r\n` yields the trimmed content `1.6.7`.  `version` only
splits the line at byte 8 and never trims, so it returns the rest of the
raw line, terminator included. -/
theorem version_counterexample :
    Client.version "VERSION 1.6.7\r\n" = .ok "1.6.7\r\n" ∧
    ("1.6.7\r\n" : String) ≠ "1.6.7" :=
  ⟨rfl, by decide⟩

/-- C7 (amended): a reply line of at least 8 characters has its 8-character
`VERSION ` header peeled off and the remainder of the raw line — including
its line terminator — is returned (`VERSION 1.6.7\r\n` yields
`1.6.7\r\n`); a shorter line yields a protocol error embedding the raw
line text. -/
theorem version_strips_header :
    (∀ tail : String, Client.version ("VERSION " ++ tail) = .ok tail) ∧
    (∀ line : String, line.length < 8 →
      Client.version line = .error (.Protocol (.Error (.Protocol (some
        ("Invalid response for `version` command: `" ++ line ++ "`")))))) := by
  constructor
  · intro tail
    have hlen : ("VERSION " ++ tail).length = "VERSION ".length + tail.length :=
      String.length_append _ _
    have h8 : "VERSION ".length = 8 := rfl
    unfold Client.version
    rw [if_pos (by omega)]
    have hdrop : ("VERSION " ++ tail).data.drop 8 = tail.data := by
      rw [String.data_append]
      have h8d : ("VERSION ".data).length = 8 := rfl
      rw [← h8d, List.drop_left]
    rw [hdrop]
  · intro line hlen
    unfold Client.version
    rw [if_neg (by omega)]

/-- Witness for the amended C7 at the concrete lines `VERSION 1.6.7\r\n`
and `END`. -/
theorem version_strips_header_witness :
    Client.version ("VERSION " ++ "1.6.7\r\n") = .ok "1.6.7\r\n" ∧
    Client.version "END" = .error (.Protocol (.Error (.Protocol (some
      ("Invalid response for `version` command: `" ++ "END" ++ "`"))))) :=
  ⟨version_strips_header.1 "1.6.7\r\n", version_strips_header.2 "END" (by decide)⟩

/-- C8: the metadump cursor is a state machine over its `done` flag: once
done every pull is a repeatable no-op; `End` sets done and yields nothing;
`BadClass` sets done and surfaces an error; `Busy` surfaces an error but
leaves the cursor open; `Entry` yields the metadata item and leaves the
cursor open. -/
theorem metadump_iter_state_machine :
    (∀ resp, MetadumpIter.next resp true = (none, true)) ∧
    MetadumpIter.next (.ok .End) false = (none, true) ∧
    (∀ s, MetadumpIter.next (.ok (.BadClass s)) false =
      (some (.error (.Protocol (.Error (.Protocol (some s))))), true)) ∧
    (∀ s, MetadumpIter.next (.ok (.Busy s)) false =
      (some (.error (.Protocol (.Error (.Protocol (some s))))), false)) ∧
    (∀ km, MetadumpIter.next (.ok (.Entry km)) false = (some (.ok km), false)) :=
  ⟨fun _ => rfl, rfl, fun _ => rfl, fun _ => rfl, fun _ => rfl⟩

/-- C9: each no-reply variant writes its frame with a trailing ` noreply`
token before the line break, leaves the receive buffer and consumed-count
state untouched, and reports success locally — the result carries no
server outcome at all. -/
theorem no_reply_variants_local_success
    (key value : List Nat) (ttl : Option Int) (flags : Option Nat)
    (amount : Nat) (st : ClientState) :
    ((Client.set_no_reply key value ttl flags st).2 = (st, .ok ()) ∧
      ∃ a b, (Client.set_no_reply key value ttl flags st).1 =
        a ++ asciiBytes " noreply\r\n" ++ b) ∧
    ((Client.delete_no_reply key st).2 = (st, .ok ()) ∧
      ∃ a b, (Client.delete_no_reply key st).1 =
        a ++ asciiBytes " noreply\r\n" ++ b) ∧
    ((Client.increment_no_reply key amount st).2 = (st, .ok ()) ∧
      ∃ a b, (Client.increment_no_reply key amount st).1 =
        a ++ asciiBytes " noreply\r\n" ++ b) ∧
    ((Client.decrement_no_reply key amount st).2 = (st, .ok ()) ∧
      ∃ a b, (Client.decrement_no_reply key amount st).1 =
        a ++ asciiBytes " noreply\r\n" ++ b) := by
  refine ⟨⟨rfl, ?_⟩, ⟨rfl, ?_⟩, ⟨rfl, ?_⟩, ⟨rfl, ?_⟩⟩
  · exact ⟨asciiBytes "set " ++ key ++ asciiBytes " " ++
      asciiBytes (toString (flags.getD 0)) ++ asciiBytes " " ++
      asciiBytes (toString (ttl.getD 0)) ++ asciiBytes " " ++
      asciiBytes (toString value.length), value ++ asciiBytes "\r\n",
      by simp [Client.set_no_reply]⟩
  · exact ⟨asciiBytes "delete " ++ key, [],
      by simp [Client.delete_no_reply]⟩
  · exact ⟨asciiBytes "incr " ++ key ++ asciiBytes " " ++
      asciiBytes (toString amount), [],
      by simp [Client.increment_no_reply]⟩
  · exact ⟨asciiBytes "decr " ++ key ++ asciiBytes " " ++
      asciiBytes (toString amount), [],
      by simp [Client.decrement_no_reply]⟩

/-- Unfolding equation for `filter_set_multi_responses` on a non-empty key
list, phrased through a decidable test on the driven response. -/
theorem filter_set_multi_unfold {K : Type} (key : K) (rest : List K)
    (resps : Nat → Except Error Response) (i : Nat) :
    Client.filter_set_multi_responses (key :: rest) resps i =
      match resps i with
      | .error e => .error e
      | .ok resp =>
        if resp = .Status .Stored then
          Client.filter_set_multi_responses rest resps (i + 1)
        else
          (Client.filter_set_multi_responses rest resps (i + 1)).map
            (fun m => (key, Client.setStoreResult resp) :: m) := by
  cases hre : resps i with
  | error e => simp [Client.filter_set_multi_responses, hre]
  | ok resp =>
    cases resp with
    | Status s =>
      cases s <;>
        simp [Client.filter_set_multi_responses, hre, Client.setStoreResult]
    | Data d =>
      simp [Client.filter_set_multi_responses, hre, Client.setStoreResult]
    | IncrDecr n =>
      simp [Client.filter_set_multi_responses, hre, Client.setStoreResult]

/-- Every key of the result mapping produced by
`filter_set_multi_responses` is one of the input keys. -/
theorem filter_keys_subset {K : Type} (resps : Nat → Except Error Response) :
    ∀ (kvp : List K) (i : Nat) (m : List (K × Except Error Response)),
      Client.filter_set_multi_responses kvp resps i = .ok m →
      ∀ p ∈ m, p.1 ∈ kvp := by
  intro kvp
  induction kvp with
  | nil =>
    intro i m h p hp
    simp only [Client.filter_set_multi_responses, Except.ok.injEq] at h
    subst h
    simp at hp
  | cons key rest ih =>
    intro i m h p hp
    rw [filter_set_multi_unfold] at h
    cases hre : resps i with
    | error e =>
      rw [hre] at h
      simp at h
    | ok resp =>
      rw [hre] at h
      dsimp only at h
      by_cases hst : resp = .Status .Stored
      · rw [if_pos hst] at h
        exact List.mem_cons_of_mem _ (ih _ _ h p hp)
      · rw [if_neg hst] at h
        cases hrec : Client.filter_set_multi_responses rest resps (i + 1) with
        | error e =>
          rw [hrec] at h
          simp [Except.map] at h
        | ok m0 =>
          rw [hrec] at h
          simp only [Except.map, Except.ok.injEq] at h
          subst h
          rcases List.mem_cons.mp hp with heq | hp0
          · rw [heq]
            exact List.mem_cons_self _ _
          · exact List.mem_cons_of_mem _ (ih _ _ hrec p hp0)

/-- Per-key correlation of `filter_set_multi_responses` over distinct keys:
the j-th key is absent from the result mapping when its response is the
`Stored` status, present with the mapped server error for any other
status, and present with the protocol-shape error for any non-status
response. -/
theorem filter_correlation {K : Type} (resps : Nat → Except Error Response) :
    ∀ (keys : List K), keys.Nodup →
      ∀ (i : Nat) (m : List (K × Except Error Response)),
      Client.filter_set_multi_responses keys resps i = .ok m →
      ∀ (j : Nat) (hj : j < keys.length),
        (resps (i + j) = .ok (.Status .Stored) →
          ∀ e, (keys.get ⟨j, hj⟩, e) ∉ m) ∧
        (∀ s, s ≠ Status.Stored → resps (i + j) = .ok (.Status s) →
          (keys.get ⟨j, hj⟩, Except.error (Error.Protocol s)) ∈ m) ∧
        (∀ r, (∀ s, r ≠ Response.Status s) → resps (i + j) = .ok r →
          (keys.get ⟨j, hj⟩,
            Except.error (Error.Protocol (Status.Error (ErrorKind.Protocol none)))) ∈ m) := by
  intro keys
  induction keys with
  | nil =>
    intro _ i m _ j hj
    exact absurd hj (by simp)
  | cons key rest ih =>
    intro hnd i m hm j hj
    have hndr : rest.Nodup := (List.nodup_cons.mp hnd).2
    have hkey : key ∉ rest := (List.nodup_cons.mp hnd).1
    rw [filter_set_multi_unfold] at hm
    cases hre : resps i with
    | error e =>
      rw [hre] at hm
      simp at hm
    | ok resp =>
      rw [hre] at hm
      dsimp only at hm
      by_cases hst : resp = .Status .Stored
      · rw [if_pos hst] at hm
        cases j with
        | zero =>
          refine ⟨fun _ e hmem => ?_, fun s hs h0 => ?_, fun r hr h0 => ?_⟩
          · have := filter_keys_subset resps rest (i + 1) m hm _ hmem
            exact hkey (by simpa using this)
          · rw [Nat.add_zero] at h0
            have h1 : resp = Response.Status s := Except.ok.inj (hre.symm.trans h0)
            rw [hst] at h1
            exact absurd (Response.Status.inj h1).symm hs
          · rw [Nat.add_zero] at h0
            have h1 : resp = r := Except.ok.inj (hre.symm.trans h0)
            rw [hst] at h1
            exact absurd h1.symm (hr Status.Stored)
        | succ j0 =>
          have hj0 : j0 < rest.length := by simpa using hj
          have harith : i + (j0 + 1) = (i + 1) + j0 := by omega
          obtain ⟨c1, c2, c3⟩ := ih hndr (i + 1) m hm j0 hj0
          refine ⟨fun h0 e => ?_, fun s hs h0 => ?_, fun r hr h0 => ?_⟩
          · rw [harith] at h0
            exact c1 h0 e
          · rw [harith] at h0
            exact c2 s hs h0
          · rw [harith] at h0
            exact c3 r hr h0
      · rw [if_neg hst] at hm
        cases hrec : Client.filter_set_multi_responses rest resps (i + 1) with
        | error e =>
          rw [hrec] at hm
          simp [Except.map] at hm
        | ok m0 =>
          rw [hrec] at hm
          simp only [Except.map, Except.ok.injEq] at hm
          subst hm
          cases j with
          | zero =>
            refine ⟨fun h0 e hmem => ?_, fun s hs h0 => ?_, fun r hr h0 => ?_⟩
            · rw [Nat.add_zero] at h0
              exact hst (Except.ok.inj (hre.symm.trans h0))
            · rw [Nat.add_zero] at h0
              have h1 : resp = Response.Status s := Except.ok.inj (hre.symm.trans h0)
              subst h1
              have hs2 : Client.setStoreResult (Response.Status s) =
                  .error (.Protocol s) := by
                cases s <;> simp_all [Client.setStoreResult]
              rw [hs2]
              exact List.mem_cons_self _ _
            · rw [Nat.add_zero] at h0
              have h1 : resp = r := Except.ok.inj (hre.symm.trans h0)
              have hrns : ∀ s, resp ≠ Response.Status s :=
                fun s hc => hr s (h1.symm.trans hc)
              have hs2 : Client.setStoreResult resp =
                  .error (.Protocol (.Error (.Protocol none))) := by
                cases hrr : resp with
                | Status s => exact absurd hrr (hrns s)
                | Data d => rfl
                | IncrDecr n => rfl
              rw [hs2]
              exact List.mem_cons_self _ _
          | succ j0 =>
            have hj0 : j0 < rest.length := by simpa using hj
            have harith : i + (j0 + 1) = (i + 1) + j0 := by omega
            obtain ⟨c1, c2, c3⟩ := ih hndr (i + 1) m0 hrec j0 hj0
            refine ⟨fun h0 e hmem => ?_, fun s hs h0 => ?_, fun r hr h0 => ?_⟩
            · rw [harith] at h0
              rcases List.mem_cons.mp hmem with heq | hmem0
              · have h2 : rest.get ⟨j0, hj0⟩ = key := congrArg Prod.fst heq
                exact hkey (h2 ▸ List.get_mem rest j0 hj0)
              · exact c1 h0 e hmem0
            · rw [harith] at h0
              exact List.mem_cons_of_mem _ (c2 s hs h0)
            · rw [harith] at h0
              exact List.mem_cons_of_mem _ (c3 r hr h0)

/-- C6: multi-key store correlation.  An empty input collection
short-circuits — no frames are written and the result mapping is empty
(first conjunct).  Over distinct keys, one response is driven per key in
request order, a `Stored` status leaves its key absent from the result
mapping, any other status is inserted keyed by the original key as the
mapped server error, and a non-status response shape is inserted as the
protocol violation error (second conjunct). -/
theorem set_multi_correlation {K : Type} (kr : K → List Nat) (ttl : Option Int)
    (flags : Option Nat) (resps : Nat → Except Error Response) :
    Client.set_multi kr ([] : List (K × List Nat)) ttl flags resps =
      ([], .ok []) ∧
    (∀ (keys : List K), keys.Nodup →
      ∀ (i : Nat) (m : List (K × Except Error Response)),
      Client.filter_set_multi_responses keys resps i = .ok m →
      ∀ (j : Nat) (hj : j < keys.length),
        (resps (i + j) = .ok (.Status .Stored) →
          ∀ e, (keys.get ⟨j, hj⟩, e) ∉ m) ∧
        (∀ s, s ≠ Status.Stored → resps (i + j) = .ok (.Status s) →
          (keys.get ⟨j, hj⟩, Except.error (Error.Protocol s)) ∈ m) ∧
        (∀ r, (∀ s, r ≠ Response.Status s) → resps (i + j) = .ok r →
          (keys.get ⟨j, hj⟩,
            Except.error (Error.Protocol (Status.Error (ErrorKind.Protocol none)))) ∈ m)) :=
  ⟨rfl, filter_correlation resps⟩

/-- A concrete response stream for the C6 witness: `STORED` for the first
key, `NOT_STORED` for every later one. -/
def respsW : Nat → Except Error Response :=
  fun i => if i = 0 then .ok (.Status .Stored) else .ok (.Status .NotStored)

/-- The result mapping of the C6 witness run. -/
def mW : List (String × Except Error Response) :=
  [("k2", .error (.Protocol .NotStored))]

/-- Witness for C6: keys `k1`, `k2` with replies `STORED`, `NOT_STORED`
leave `k1` absent and map `k2` to the not-stored error; the empty
collection short-circuits. -/
theorem set_multi_correlation_witness :
    Client.set_multi (fun s : String => asciiBytes s)
      ([] : List (String × List Nat)) none none respsW = ([], .ok []) ∧
    (("k1", Except.error (Error.Protocol Status.NotStored)) ∉ mW) ∧
    (("k2", Except.error (Error.Protocol Status.NotStored)) ∈ mW) := by
  refine ⟨(set_multi_correlation (fun s : String => asciiBytes s)
    none none respsW).1, ?_, ?_⟩
  · exact ((set_multi_correlation (fun s : String => asciiBytes s)
      none none respsW).2 ["k1", "k2"] (by decide) 0 mW rfl 0 (by decide)).1
      rfl (Except.error (Error.Protocol Status.NotStored))
  · exact ((set_multi_correlation (fun s : String => asciiBytes s)
      none none respsW).2 ["k1", "k2"] (by decide) 0 mW rfl 1 (by decide)).2.1
      Status.NotStored (by decide) rfl

/-- The inlined response loop of `set_multi_test_two` computes exactly
`filter_set_multi_responses`. -/
theorem collect_eq_filter {K : Type} (resps : Nat → Except Error Response) :
    ∀ (keys : List K) (i : Nat),
      Client.collectResponses keys resps i =
        Client.filter_set_multi_responses keys resps i := by
  intro keys
  induction keys with
  | nil => intro i; rfl
  | cons key rest ih =>
    intro i
    cases hre : resps i with
    | error e =>
      simp [Client.collectResponses, filter_set_multi_unfold, hre]
    | ok resp =>
      cases resp with
      | Status s =>
        cases s <;>
          simp [Client.collectResponses, filter_set_multi_unfold, hre,
            Client.setStoreResult, ih]
      | Data d =>
        simp [Client.collectResponses, filter_set_multi_unfold, hre,
          Client.setStoreResult, ih]
      | IncrDecr n =>
        simp [Client.collectResponses, filter_set_multi_unfold, hre,
          Client.setStoreResult, ih]

/-- The write loop of `set_multi_test_two` writes one `setFrame` per pair
and collects the keys in processing order. -/
theorem writeKeysLoop_eq {K : Type} (kr : K → List Nat) (ttl : Option Int)
    (flags : Option Nat) :
    ∀ kv : List (K × List Nat),
      Client.writeKeysLoop kr ttl flags kv =
        (kv.map (fun p => Client.setFrame (kr p.1) p.2 ttl flags),
         kv.map Prod.fst) := by
  intro kv
  induction kv with
  | nil => rfl
  | cons p rest ih =>
    obtain ⟨key, value⟩ := p
    simp [Client.writeKeysLoop, Client.setFrame, ih]

/-- C10: for every key-value collection and per-key response stream,
`set_multi_test_two` writes the same sequence of request frames and
returns the same result mapping as `set_multi` — the vector-collecting,
inlined-filtering variant is observably equivalent. -/
theorem set_multi_test_two_equiv {K : Type} (kr : K → List Nat)
    (kv : List (K × List Nat)) (ttl : Option Int) (flags : Option Nat)
    (resps : Nat → Except Error Response) :
    Client.set_multi_test_two kr kv ttl flags resps =
      Client.set_multi kr kv ttl flags resps := by
  cases kv with
  | nil => rfl
  | cons p rest =>
    simp [Client.set_multi_test_two, Client.set_multi, writeKeysLoop_eq,
      collect_eq_filter]

end AsyncMemcached
